import Mathlib

/-!
Shallow embedding of the l2perf measurement engine (src/main.rs).

Machine integers (`u32`, `u64`, `usize`) are modelled as `Nat`; wherever the
Rust code performs a `u64` subtraction whose underflow matters (it aborts the
program under overflow checks, and wraps to a garbage value in release builds),
the model uses a checked subtraction returning `Option Nat`, so that `none`
marks the arithmetic failure.  Wall-clock instants are modelled as abstract
`Nat` timestamps measured in seconds; `f32` time/rate arithmetic on exactly
representable small values is modelled in `ℚ`, and the one place where IEEE
non-finite semantics decide control flow (the sender's rate check at zero
elapsed time) encodes the `NaN`/`+Inf` comparison outcomes explicitly.
-/

namespace L2Perf

/-- The wire header `struct Id { id: u32, cnt: u64, last: bool }` from main.rs. -/
structure Id where
  id : Nat
  cnt : Nat
  last : Bool
  deriving DecidableEq

/-- `Id::new(id)`: counter starts at 0, `last` false. -/
def Id.new (i : Nat) : Id := ⟨i, 0, false⟩

/-- `Id::next`: same stream id, counter incremented, `last` false. -/
def Id.next (s : Id) : Id := ⟨s.id, s.cnt + 1, false⟩

/-- One element of `Tracker::pkts: Vec<(Instant, u64, u64)>`:
`(timestamp, id, size)` in arrival order. -/
structure Pkt where
  t : Nat
  seq : Nat
  len : Nat
  deriving DecidableEq

/-- `struct Tracker` from main.rs, field for field
(`begin`, `total_bytes`, `last_ptr`, `last_rep`, `pkts`). -/
structure Tracker where
  begin : Nat
  total_bytes : Nat
  last_ptr : Nat
  last_rep : Nat
  pkts : List Pkt
  deriving DecidableEq

/-- `Tracker::new()`: both timestamps are the current instant, everything
else empty/zero. -/
def Tracker.new (now : Nat) : Tracker := ⟨now, 0, 0, now, []⟩

/-- `Tracker::insert(&mut self, id, len)`.  The returned `Bool` is true when
the code's out-of-order branch fires (`eprintln!("Out of order recv!")`): the
previous record's sequence is greater than the new one.  In every case the
record is appended and `total_bytes` grows by `len`. -/
def Tracker.insert (tr : Tracker) (h : Id) (len now : Nat) : Bool × Tracker :=
  (match tr.pkts.getLast? with
    | some p => decide (p.seq > h.cnt)
    | none => false,
   { tr with
      total_bytes := tr.total_bytes + len,
      pkts := tr.pkts ++ [⟨now, h.cnt, len⟩] })

/-- Checked `u64` subtraction: `a - b` in Rust `u64` underflows when `b > a`
(panic with overflow checks on; wraparound in release), modelled by `none`. -/
def checkedSub (a b : Nat) : Option Nat :=
  if b ≤ a then some (a - b) else none

/-- The loss computation shared by `Tracker::report_rx` (over the window
`chunk = &self.pkts[self.last_ptr..]`) and `Tracker::report_rx_summary`
(over all of `self.pkts`):

  `id_diff = chunk.last().unwrap().1 - chunk[0].1 + 1`
  `dropped = id_diff - chunk.len()`
  `percent = dropped as f32 / id_diff as f32 * 100.0`

Result `(id_diff, chunk.len(), percent)`.  `none` models either the
`unwrap()` panic on an empty chunk or a `u64` subtraction underflow.  The
percentage is computed in `ℚ`; for the values any claim touches the `f32`
computation is exact. -/
def reportRxCalc (chunk : List Pkt) : Option (Nat × Nat × ℚ) :=
  match chunk.head?, chunk.getLast? with
  | some f, some l =>
    match checkedSub l.seq f.seq with
    | some d =>
      match checkedSub (d + 1) chunk.length with
      | some dropped => some (d + 1, chunk.length, (dropped : ℚ) / ((d + 1 : Nat) : ℚ) * 100)
      | none => none
    | none => none
  | _, _ => none

/-- `Tracker::report_rx`: if at least one second elapsed since `last_rep`,
compute the window statistics over `pkts[last_ptr..]` and advance `last_rep`
to now and `last_ptr` to the index of the last record (`pkts.len() - 1`,
keeping an inclusive one-record overlap).  `none` models a panic inside the
window computation.  The printed byte-rate of the window involves no fallible
arithmetic and no claim mentions it, so only the state change is kept. -/
def Tracker.report_rx (tr : Tracker) (now : Nat) : Option Tracker :=
  if 1 ≤ now - tr.last_rep then
    match reportRxCalc (tr.pkts.drop tr.last_ptr) with
    | some _ => some { tr with last_rep := now, last_ptr := tr.pkts.length - 1 }
    | none => none
  else some tr

/-- `Tracker::report_rx_summary`: the same `id_diff`/`dropped`/`percent`
computation applied to the full record list.  The code first executes
`self.pkts.last().unwrap()` (for the end timestamp), so a tracker with zero
records panics — modelled by `reportRxCalc [] = none`.  The printed Mbps rate
over wall-clock times involves no claim and is not part of the result. -/
def Tracker.report_rx_summary (tr : Tracker) : Option (Nat × Nat × ℚ) :=
  reportRxCalc tr.pkts

/-- Modelled from the spec's words only (for comparison against the code):
"expected count as (max_sequence_in_window - min_sequence_in_window + 1)". -/
def specExpectedCount (chunk : List Pkt) : Option Nat :=
  match chunk.map Pkt.seq with
  | [] => none
  | s :: ss => some (ss.foldl Nat.max s - ss.foldl Nat.min s + 1)

/-- The sender's rate-limit decision in `tx_traffic`:

  `cur_rate = ((8 * tracker.total_bytes) as f32) / elapsed.as_secs_f32()`
  `if cur_rate > opts.bandwidth * 1_000_000.0 { sleep } else { send }`

Returns `true` when the loop sleeps for one resolution tick.  At
`elapsedSecs = 0` the `f32` division yields `NaN` when `total_bytes = 0`
(`NaN > x` is false for every `x`, so the loop sends) and `+Inf` when
`total_bytes > 0` (`+Inf > x` is true for every finite `x`, so the loop
sleeps); both outcomes are encoded explicitly.  For positive elapsed time the
comparison is taken over `ℚ`. -/
def shouldSleep (total_bytes : Nat) (elapsedSecs : ℚ) (bandwidthMbps : ℚ) : Bool :=
  if elapsedSecs = 0 then
    if total_bytes = 0 then false else true
  else
    decide ((8 * total_bytes : ℚ) / elapsedSecs > bandwidthMbps * 1000000)

/-- The emission trace of `tx_traffic` as a function of the number of send
iterations still to come: each send iteration emits the current `Id` and
steps it with `Id::next`; when the duration check finally fires, the loop
sets `last = true` on the current `Id` (whose counter was already advanced
past the last data frame) and emits it once. -/
def txLoop (i : Id) : Nat → List Id
  | 0 => [{ i with last := true }]
  | n + 1 => i :: txLoop (Id.next i) n

/-- The emission trace of `tx_traffic` driven by the per-iteration rate-limit
decisions (`true` = over budget, sleep and emit nothing; `false` = send):
sleeping iterations leave the `Id` state untouched. -/
def txRun (i : Id) : List Bool → List Id
  | [] => [{ i with last := true }]
  | d :: ds => if d then txRun i ds else i :: txRun (Id.next i) ds

/-- Number of send (non-sleep) iterations among the decisions. -/
def numSends : List Bool → Nat
  | [] => 0
  | d :: ds => numSends ds + (if d then 0 else 1)

/-- bincode legacy config (used by `bincode::serialize_into` /
`bincode::deserialize`): fixed-width little-endian integers.  Four bytes of a
`u32`. -/
def encodeU32 (n : Nat) : List Nat :=
  [n % 256, n / 256 % 256, n / 65536 % 256, n / 16777216 % 256]

/-- Eight little-endian bytes of a `u64`. -/
def encodeU64 (n : Nat) : List Nat :=
  [n % 256, n / 256 % 256, n / 65536 % 256, n / 16777216 % 256,
   n / 4294967296 % 256, n / 1099511627776 % 256,
   n / 281474976710656 % 256, n / 72057594037927936 % 256]

/-- bincode's `bool` decoding: byte 0 is `false`, byte 1 is `true`, anything
else is an `InvalidBoolEncoding` error. -/
def decodeBool (b : Nat) : Option Bool :=
  if b = 0 then some false else if b = 1 then some true else none

/-- `bincode::serialize_into(&mut buf[..], &id)`: 13 bytes
(`u32` LE, `u64` LE, one bool byte); the remaining payload bytes of the
frame are untouched filler. -/
def encodeId (h : Id) : List Nat :=
  encodeU32 h.id ++ encodeU64 h.cnt ++ [if h.last then 1 else 0]

/-- `bincode::deserialize::<Id>(&packet_raw)`: reads the 13 header bytes and
ignores any trailing bytes (the legacy config does not require the buffer to
be fully consumed); fails if fewer than 13 bytes are available or the bool
byte is invalid. -/
def decodeId (bs : List Nat) : Option Id :=
  match bs with
  | a0 :: a1 :: a2 :: a3 :: b0 :: b1 :: b2 :: b3 :: b4 :: b5 :: b6 :: b7 :: c0 :: _ =>
    match decodeBool c0 with
    | some l =>
      some ⟨a0 + 256 * a1 + 65536 * a2 + 16777216 * a3,
            b0 + 256 * b1 + 65536 * b2 + 16777216 * b3 + 4294967296 * b4 +
              1099511627776 * b5 + 281474976710656 * b6 + 72057594037927936 * b7,
            l⟩
    | none => none
  | _ => none

/-- Iterated `Tracker::insert`: each item is `(now, sequence, byte_length)`. -/
def applyInserts (tr : Tracker) : List (Nat × Nat × Nat) → Tracker
  | [] => tr
  | (now, s, len) :: rest => applyInserts (Tracker.insert tr ⟨0, s, false⟩ len now).2 rest

/-- Lookup in the receiver's per-stream map (`HashMap<u32, Tracker>`,
modelled as an association list without duplicate keys). -/
def alLookup (k : Nat) : List (Nat × Tracker) → Option Tracker
  | [] => none
  | p :: r => if p.1 = k then some p.2 else alLookup k r

/-- Insert-or-replace, the effect of `trackers.entry(id).or_insert_with(..)`
followed by mutation of the entry in place. -/
def alUpdate (k : Nat) (v : Tracker) : List (Nat × Tracker) → List (Nat × Tracker)
  | [] => [(k, v)]
  | p :: r => if p.1 = k then (k, v) :: r else p :: alUpdate k v r

/-- `trackers.remove(&k)`. -/
def alRemove (k : Nat) : List (Nat × Tracker) → List (Nat × Tracker)
  | [] => []
  | p :: r => if p.1 = k then alRemove k r else p :: alRemove k r

/-- One `Ok(packet_raw)` iteration of the `rx_traffic` loop, after the header
has been decoded to `hdr` and `len = packet_raw.len()`: look up or create the
tracker for `hdr.id`, run `report_rx` on it, then — if the end-of-stream flag
is set — run the summary report and remove the tracker, otherwise insert the
frame's record.  `none` models a panic inside a report. -/
def rxStep (st : List (Nat × Tracker)) (hdr : Id) (len now : Nat) :
    Option (List (Nat × Tracker)) :=
  match Tracker.report_rx ((alLookup hdr.id st).getD (Tracker.new now)) now with
  | none => none
  | some tr1 =>
    if hdr.last then
      match Tracker.report_rx_summary tr1 with
      | none => none
      | some _ => some (alRemove hdr.id (alUpdate hdr.id tr1 st))
    else
      some (alUpdate hdr.id (Tracker.insert tr1 hdr len now).2 st)

/-- The `Err(TimedOut)` branch of the `rx_traffic` loop: emit the summary of
every tracked stream (`for t in trackers.values()`), then clear the map.
Result: the list of `(stream id, summary attempt)` pairs and the new map. -/
def rxTimeout (st : List (Nat × Tracker)) :
    List (Nat × Option (Nat × Nat × ℚ)) × List (Nat × Tracker) :=
  (st.map (fun p => (p.1, Tracker.report_rx_summary p.2)), [])

/-- A concrete tracker holding one record of stream A, for instantiations. -/
def trackerA : Tracker := ⟨0, 50, 0, 0, [⟨0, 0, 50⟩]⟩

/-- A concrete tracker holding one record of stream B, for instantiations. -/
def trackerB : Tracker := ⟨0, 80, 0, 0, [⟨0, 4, 80⟩]⟩

/-! ### Helper lemmas -/

theorem applyInserts_total (l : List (Nat × Nat × Nat)) : ∀ tr : Tracker,
    (applyInserts tr l).total_bytes = tr.total_bytes + (l.map fun x => x.2.2).sum := by
  induction l with
  | nil => intro tr; simp [applyInserts]
  | cons x rest ih =>
    intro tr
    obtain ⟨now, s, len⟩ := x
    simp [applyInserts, Tracker.insert, ih]
    omega

theorem alLookup_mem {k : Nat} {t : Tracker} :
    ∀ {st : List (Nat × Tracker)}, alLookup k st = some t → (k, t) ∈ st := by
  intro st
  induction st with
  | nil => intro h; simp [alLookup] at h
  | cons p r ih =>
    obtain ⟨p1, p2⟩ := p
    intro h
    by_cases hp : p1 = k
    · subst hp
      simp only [alLookup, if_pos] at h
      obtain rfl : p2 = t := by injection h
      exact List.mem_cons_self _ _
    · simp only [alLookup, hp, if_false] at h
      exact List.mem_cons_of_mem _ (ih h)

theorem alLookup_update_self (k : Nat) (v : Tracker) :
    ∀ st : List (Nat × Tracker), alLookup k (alUpdate k v st) = some v := by
  intro st
  induction st with
  | nil => simp [alUpdate, alLookup]
  | cons p r ih =>
    obtain ⟨p1, p2⟩ := p
    by_cases hp : p1 = k
    · simp [alUpdate, alLookup, hp]
    · simp [alUpdate, alLookup, hp, ih]

theorem alLookup_update_ne (b k : Nat) (v : Tracker) (hbk : b ≠ k) :
    ∀ st : List (Nat × Tracker), alLookup b (alUpdate k v st) = alLookup b st := by
  have hkb : k ≠ b := Ne.symm hbk
  intro st
  induction st with
  | nil => simp [alUpdate, alLookup, hkb]
  | cons p r ih =>
    obtain ⟨p1, p2⟩ := p
    by_cases hp : p1 = k
    · subst hp
      simp [alUpdate, alLookup, hkb]
    · simp [alUpdate, alLookup, hp, ih]

theorem alLookup_remove_self (k : Nat) :
    ∀ st : List (Nat × Tracker), alLookup k (alRemove k st) = none := by
  intro st
  induction st with
  | nil => simp [alRemove, alLookup]
  | cons p r ih =>
    obtain ⟨p1, p2⟩ := p
    by_cases hp : p1 = k
    · simp [alRemove, alLookup, hp, ih]
    · simp [alRemove, alLookup, hp, ih]

theorem alLookup_remove_ne (b k : Nat) (hbk : b ≠ k) :
    ∀ st : List (Nat × Tracker), alLookup b (alRemove k st) = alLookup b st := by
  intro st
  induction st with
  | nil => simp [alRemove, alLookup]
  | cons p r ih =>
    obtain ⟨p1, p2⟩ := p
    by_cases hp : p1 = k
    · subst hp
      simp [alRemove, alLookup, Ne.symm hbk, ih]
    · simp [alRemove, alLookup, hp, ih]

theorem txLoop_eq : ∀ (n : Nat) (a b : Nat),
    txLoop ⟨a, b, false⟩ n =
      (List.range' b n).map (fun k => (⟨a, k, false⟩ : Id)) ++ [⟨a, b + n, true⟩] := by
  intro n
  induction n with
  | zero => intro a b; simp [txLoop]
  | succ n ih =>
    intro a b
    have harith : b + 1 + n = b + (n + 1) := by omega
    simp only [txLoop, Id.next, ih, List.range'_succ, List.map_cons, List.cons_append, harith]

theorem txRun_eq_loop : ∀ (ds : List Bool) (i : Id), txRun i ds = txLoop i (numSends ds) := by
  intro ds
  induction ds with
  | nil => intro i; rfl
  | cons d rest ih =>
    intro i
    cases d
    · simp [txRun, numSends, ih, txLoop]
    · simp [txRun, numSends, ih]

/-! ### Claim theorems -/

/-- C2 (counterexample): the claim says the terminal end-of-stream frame's
sequence equals the last data frame's sequence.  In a run with two send
iterations the data frames carry sequences 0 and 1, but the terminal frame
carries sequence 2, because `tx_traffic` advances `id` with `Id::next` after
every data send and serializes the already-advanced `id` when the duration
expires. -/
theorem tx_terminal_seq_counterexample :
    (txRun (Id.new 0) [false, false]).getLast? = some ⟨0, 2, true⟩ ∧
      (txRun (Id.new 0) [false, false]).dropLast.getLast? = some ⟨0, 1, false⟩ ∧
      (2 : Nat) ≠ 1 := by
  refine ⟨by decide, by decide, by decide⟩

/-- C2 (amended): in every completed sender run with at least one data frame,
the data frames carry sequences `0, 1, ..., n-1` in strictly increasing
emission order with `end_of_stream = false`, and the run ends with exactly
one final frame with `end_of_stream = true` whose sequence is `n`, i.e. one
MORE than the last data frame's sequence `n-1` (the counter is advanced after
every data send, and the terminal marker carries the advanced value). -/
theorem tx_trace_spec (sid : Nat) (ds : List Bool) (hpos : 0 < numSends ds) :
    (txRun (Id.new sid) ds).dropLast =
        (List.range (numSends ds)).map (fun k => (⟨sid, k, false⟩ : Id)) ∧
      (txRun (Id.new sid) ds).getLast? = some ⟨sid, numSends ds, true⟩ ∧
      (txRun (Id.new sid) ds).dropLast.getLast? =
        some ⟨sid, numSends ds - 1, false⟩ ∧
      ∀ f ∈ (txRun (Id.new sid) ds).dropLast, f.last = false := by
  rw [txRun_eq_loop]
  simp only [Id.new]
  rw [txLoop_eq]
  obtain ⟨m, hm⟩ : ∃ m, numSends ds = m + 1 := ⟨numSends ds - 1, by omega⟩
  rw [List.range_eq_range']
  refine ⟨by rw [List.dropLast_concat], ?_, ?_, ?_⟩
  · rw [List.getLast?_concat]
    simp
  · rw [List.dropLast_concat, hm, List.range'_concat, List.map_append]
    simp [List.getLast?_concat]
  · rw [List.dropLast_concat]
    intro f hf
    simp only [List.mem_map] at hf
    obtain ⟨k, _, rfl⟩ := hf
    rfl

/-- C2 (witness): the amended trace theorem instantiated on a run of three
iterations (send, sleep, send): data frames 0 and 1, terminal frame ⟨9,2,true⟩. -/
theorem tx_trace_spec_witness :
    (txRun (Id.new 9) [false, true, false]).dropLast =
        (List.range 2).map (fun k => (⟨9, k, false⟩ : Id)) ∧
      (txRun (Id.new 9) [false, true, false]).getLast? = some ⟨9, 2, true⟩ ∧
      (txRun (Id.new 9) [false, true, false]).dropLast.getLast? =
        some ⟨9, 1, false⟩ ∧
      ∀ f ∈ (txRun (Id.new 9) [false, true, false]).dropLast, f.last = false :=
  tx_trace_spec 9 [false, true, false] (by decide)

/-- C3 (code_bug evidence): the window and summary loss arithmetic fails on a
reordered arrival pattern.  With records arriving as sequence 7 then
sequence 5, `chunk.last().unwrap().1 - chunk[0].1` computes `5 - 7` in `u64`,
which underflows; with arrivals 3,0,1,4 the later `id_diff - chunk.len()`
computes `2 - 4`, which also underflows.  Under Rust's checked arithmetic the
process aborts; in release builds the value wraps to a garbage expected
count.  Either way the computation is not robust to arrival permutations, so
the modelled computation returns `none` on these inputs, for the window
report and the summary report alike. -/
theorem reportRx_reorder_underflow :
    reportRxCalc [⟨0, 7, 100⟩, ⟨1, 5, 100⟩] = none ∧
      reportRxCalc [⟨0, 3, 100⟩, ⟨1, 0, 100⟩, ⟨2, 1, 100⟩, ⟨3, 4, 100⟩] = none ∧
      Tracker.report_rx_summary ⟨0, 200, 0, 0, [⟨0, 7, 100⟩, ⟨1, 5, 100⟩]⟩ = none := by
  refine ⟨?_, ?_, ?_⟩ <;> simp [Tracker.report_rx_summary, reportRxCalc, checkedSub]

/-- C4 (counterexample): the claim says that at zero elapsed time the rate is
treated as over budget and the first decision is to wait.  In the code the
first iteration has `total_bytes = 0`, so `cur_rate = 0.0 / 0.0 = NaN`, and
`NaN > bandwidth * 1e6` is false: the loop takes the send branch, not the
sleep branch. -/
theorem shouldSleep_zero_counterexample : shouldSleep 0 0 1 = false := rfl

/-- C4 (amended): with zero bytes sent the sender's rate check never fires —
at exactly zero elapsed time the `f32` rate is `NaN` and the over-budget
comparison is false, and at any elapsed time the rate is 0, not above any
nonnegative bandwidth target — so the first decision of the send loop is
always to send a frame, never to wait. -/
theorem shouldSleep_zero_elapsed (bw e : ℚ) (hbw : 0 ≤ bw) :
    shouldSleep 0 e bw = false := by
  unfold shouldSleep
  by_cases h0 : e = 0
  · simp [h0]
  · have hnn : (0 : ℚ) ≤ bw * 1000000 := by positivity
    simp only [h0, if_false, Nat.cast_zero, mul_zero, zero_div, decide_eq_false_iff_not,
      not_lt, if_neg h0]
    exact hnn

/-- C4 (witness): the amended theorem at a positive elapsed time. -/
theorem shouldSleep_zero_elapsed_witness : shouldSleep 0 2 1 = false :=
  shouldSleep_zero_elapsed 1 2 (by norm_num)

/-- C8: for every finite sequence of `insert()` calls on a fresh tracker,
`total_bytes` after the N-th insert equals the sum of the N inserted byte
lengths, and is therefore invariant under permutation of the arrival order. -/
theorem insert_total_bytes_sum (now0 : Nat) (l : List (Nat × Nat × Nat)) :
    (applyInserts (Tracker.new now0) l).total_bytes = (l.map fun x => x.2.2).sum ∧
      ∀ l' : List (Nat × Nat × Nat), l'.Perm l →
        (applyInserts (Tracker.new now0) l').total_bytes =
          (applyInserts (Tracker.new now0) l).total_bytes := by
  constructor
  · simp [applyInserts_total, Tracker.new]
  · intro l' hp
    simp only [applyInserts_total, Tracker.new]
    exact congrArg (0 + ·) ((hp.map fun x => x.2.2).sum_eq)

/-- C8 (witness): two inserts of 10 and 20 bytes give 30 total bytes, in
either arrival order. -/
theorem insert_total_bytes_sum_witness :
    (applyInserts (Tracker.new 0) [(0, 0, 10), (1, 1, 20)]).total_bytes =
        ([(0, 0, 10), (1, 1, 20)].map fun x : Nat × Nat × Nat => x.2.2).sum ∧
      (applyInserts (Tracker.new 0) [(1, 1, 20), (0, 0, 10)]).total_bytes =
        (applyInserts (Tracker.new 0) [(0, 0, 10), (1, 1, 20)]).total_bytes :=
  ⟨(insert_total_bytes_sum 0 [(0, 0, 10), (1, 1, 20)]).1,
   (insert_total_bytes_sum 0 [(0, 0, 10), (1, 1, 20)]).2 [(1, 1, 20), (0, 0, 10)]
     (List.Perm.swap (0, 0, 10) (1, 1, 20) [])⟩

/-- C9: inserting a sequence smaller than the previously appended record's
sequence surfaces the out-of-order warning (the `eprintln!` branch), and the
record is nonetheless appended: the record list grows by exactly the new
record, the record count by one, and `total_bytes` by the inserted length —
exactly the state change of an in-order arrival. -/
theorem insert_out_of_order (tr : Tracker) (p : Pkt) (hdr : Id) (len now : Nat)
    (hlast : tr.pkts.getLast? = some p) (hgt : hdr.cnt < p.seq) :
    (tr.insert hdr len now).1 = true ∧
      (tr.insert hdr len now).2.pkts = tr.pkts ++ [⟨now, hdr.cnt, len⟩] ∧
      (tr.insert hdr len now).2.pkts.length = tr.pkts.length + 1 ∧
      (tr.insert hdr len now).2.total_bytes = tr.total_bytes + len := by
  simp [Tracker.insert, hlast, hgt]

/-- C9 (witness): inserting sequence 5 after sequence 7 triggers the warning,
keeps both records, and counts the new length. -/
theorem insert_out_of_order_witness :
    (((Tracker.new 0).insert ⟨9, 7, false⟩ 100 1).2.insert ⟨9, 5, false⟩ 100 2).1 = true ∧
      (((Tracker.new 0).insert ⟨9, 7, false⟩ 100 1).2.insert ⟨9, 5, false⟩ 100 2).2.pkts =
        ((Tracker.new 0).insert ⟨9, 7, false⟩ 100 1).2.pkts ++ [⟨2, 5, 100⟩] ∧
      (((Tracker.new 0).insert ⟨9, 7, false⟩ 100 1).2.insert ⟨9, 5, false⟩ 100 2).2.pkts.length =
        ((Tracker.new 0).insert ⟨9, 7, false⟩ 100 1).2.pkts.length + 1 ∧
      (((Tracker.new 0).insert ⟨9, 7, false⟩ 100 1).2.insert ⟨9, 5, false⟩ 100 2).2.total_bytes =
        ((Tracker.new 0).insert ⟨9, 7, false⟩ 100 1).2.total_bytes + 100 :=
  insert_out_of_order _ ⟨1, 7, 100⟩ ⟨9, 5, false⟩ 100 2 (by decide) (by decide)

/-- C10 (code_bug evidence): when the first frame ever observed for a
previously unseen stream id carries `end_of_stream = true`, `rx_traffic`
creates a fresh (empty) tracker and immediately calls `report_rx_summary`,
which executes `self.pkts.last().unwrap()` on the empty record list and
panics, aborting the receiver — modelled by the step returning `none`.  The
summary computation is likewise undefined (`none`) on a tracker with zero
records. -/
theorem rxStep_eos_first_panics :
    rxStep [] ⟨42, 0, true⟩ 100 0 = none ∧
      Tracker.report_rx_summary (Tracker.new 0) = none := by
  constructor <;>
    simp [rxStep, alLookup, Tracker.new, Tracker.report_rx,
      Tracker.report_rx_summary, reportRxCalc]

theorem checkedSub_some {a b c : Nat} (h : checkedSub a b = some c) :
    b ≤ a ∧ c = a - b := by
  unfold checkedSub at h
  split at h
  · refine ⟨by assumption, ?_⟩
    injection h with h
    omega
  · cases h

/-- C1 (counterexample): the claim says the expected frame count of a window
equals the maximum sequence in the window minus the minimum plus 1.  For a
window whose records arrive in the order 1, 0, 3, 4 the code reports
`id_diff = chunk.last().1 - chunk[0].1 + 1 = 4 - 1 + 1 = 4` (and 0% drops),
while max − min + 1 = 5. -/
theorem reportRx_maxmin_counterexample :
    reportRxCalc [⟨0, 1, 100⟩, ⟨1, 0, 100⟩, ⟨2, 3, 100⟩, ⟨3, 4, 100⟩] = some (4, 4, 0) ∧
      specExpectedCount [⟨0, 1, 100⟩, ⟨1, 0, 100⟩, ⟨2, 3, 100⟩, ⟨3, 4, 100⟩] = some 5 ∧
      (4 : Nat) ≠ 5 := by
  refine ⟨by simp [reportRxCalc, checkedSub], by decide, by decide⟩

/-- C1 (amended): for every receive-side window report over a non-empty set
of records appended since the window cursor, the expected frame count equals
the sequence of the last-arrived record minus the sequence of the
first-arrived record plus 1 (this coincides with max − min + 1 exactly when
the window's sequences arrive in nondecreasing order), the actual count is
the number of records in the window, and the reported drop percentage equals
`(expected − actual) / expected * 100`; for received sequences 0, 1, 3, 4 in
arrival order this gives expected 5, actual 4 and 20.00% drops. -/
theorem reportRx_window_formula (chunk : List Pkt) (e a : Nat) (q : ℚ)
    (h : reportRxCalc chunk = some (e, a, q)) :
    (∃ f l, chunk.head? = some f ∧ chunk.getLast? = some l ∧ f.seq ≤ l.seq ∧
        e = l.seq - f.seq + 1) ∧
      a = chunk.length ∧ a ≤ e ∧ q = ((e : ℚ) - (a : ℚ)) / (e : ℚ) * 100 := by
  unfold reportRxCalc at h
  split at h
  · rename_i f l hf hl
    split at h
    · rename_i d hd
      split at h
      · rename_i dropped hdrop
        simp only [Option.some.injEq, Prod.mk.injEq] at h
        obtain ⟨he, ha, hq⟩ := h
        obtain ⟨hfl, hd'⟩ := checkedSub_some hd
        obtain ⟨hae, hdrop'⟩ := checkedSub_some hdrop
        subst he ha
        refine ⟨⟨f, l, hf, hl, hfl, by omega⟩, rfl, hae, ?_⟩
        rw [← hq, hdrop', Nat.cast_sub hae]
      · cases h
    · cases h
  · cases h

/-- C1 (witness): the amended window formula at the claim's concrete window
{0,1,3,4}: expected 5, actual 4, drop percentage 20. -/
theorem reportRx_window_formula_witness :
    (∃ f l, ([⟨0, 0, 100⟩, ⟨1, 1, 100⟩, ⟨2, 3, 100⟩, ⟨3, 4, 100⟩] : List Pkt).head? = some f ∧
        ([⟨0, 0, 100⟩, ⟨1, 1, 100⟩, ⟨2, 3, 100⟩, ⟨3, 4, 100⟩] : List Pkt).getLast? = some l ∧
        f.seq ≤ l.seq ∧ 5 = l.seq - f.seq + 1) ∧
      4 = ([⟨0, 0, 100⟩, ⟨1, 1, 100⟩, ⟨2, 3, 100⟩, ⟨3, 4, 100⟩] : List Pkt).length ∧
      4 ≤ 5 ∧ (20 : ℚ) = (((5 : Nat) : ℚ) - ((4 : Nat) : ℚ)) / ((5 : Nat) : ℚ) * 100 := by
  have h := reportRx_window_formula
    [⟨0, 0, 100⟩, ⟨1, 1, 100⟩, ⟨2, 3, 100⟩, ⟨3, 4, 100⟩] 5 4 20
    (by simp [reportRxCalc, checkedSub]; norm_num)
  exact h

/-- C5: decoding the encoding of every valid `Id` header (stream id below
2^32, sequence below 2^64, either flag value) recovers the header, even with
arbitrary trailing filler bytes after the 13-byte fixed-size encoding. -/
theorem decode_encode_roundtrip (h : Id) (h1 : h.id < 4294967296)
    (h2 : h.cnt < 18446744073709551616) (filler : List Nat) :
    decodeId (encodeId h ++ filler) = some h := by
  obtain ⟨i, c, l⟩ := h
  simp only at h1 h2
  cases l <;>
    · simp [encodeId, encodeU32, encodeU64, decodeId, decodeBool, Id.mk.injEq]
      omega

/-- C5 (witness): round trip at the extreme values — maximal stream id and
sequence with the end flag set, and the all-zero header — with filler bytes. -/
theorem decode_encode_roundtrip_witness :
    decodeId (encodeId ⟨4294967295, 18446744073709551615, true⟩ ++ [0, 0, 0]) =
        some ⟨4294967295, 18446744073709551615, true⟩ ∧
      decodeId (encodeId ⟨0, 0, false⟩ ++ [1, 2, 3, 4]) = some ⟨0, 0, false⟩ :=
  ⟨decode_encode_roundtrip ⟨4294967295, 18446744073709551615, true⟩
      (by decide) (by decide) [0, 0, 0],
   decode_encode_roundtrip ⟨0, 0, false⟩ (by decide) (by decide) [1, 2, 3, 4]⟩

/-- C6: on a receive timeout the engine emits one summary attempt for every
currently tracked stream — keyed by that stream's id, and independently of
any end-of-stream marker, which trackers never store — and afterwards the
tracker map is empty. -/
theorem rxTimeout_flush (st : List (Nat × Tracker)) :
    (rxTimeout st).2 = [] ∧
      (rxTimeout st).1.map Prod.fst = st.map Prod.fst ∧
      (∀ k t, alLookup k st = some t →
        (k, Tracker.report_rx_summary t) ∈ (rxTimeout st).1) ∧
      ∀ k, alLookup k (rxTimeout st).2 = none := by
  refine ⟨rfl, ?_, ?_, fun k => rfl⟩
  · simp [rxTimeout]
  · intro k t hk
    exact List.mem_map_of_mem _ (alLookup_mem hk)

/-- C6 (witness): the flush theorem instantiated on a map tracking streams 3
and 8: stream 8's summary is emitted and the map is cleared. -/
theorem rxTimeout_flush_witness :
    (8, Tracker.report_rx_summary trackerB) ∈
        (rxTimeout [(3, trackerA), (8, trackerB)]).1 ∧
      (rxTimeout [(3, trackerA), (8, trackerB)]).2 = [] :=
  ⟨(rxTimeout_flush [(3, trackerA), (8, trackerB)]).2.2.1 8 trackerB
      (by simp [alLookup]),
   (rxTimeout_flush [(3, trackerA), (8, trackerB)]).1⟩

/-- C7: every frame the RxEngine processes touches only the tracker keyed by
the frame's own stream id: for any other stream id the lookup is unchanged
(records, byte totals and timestamps included, since the whole tracker value
is unchanged); an end-of-stream frame for A removes exactly A's tracker; a
data frame for A lands as the last arrival record of A's own tracker. -/
theorem rxStep_isolation (st : List (Nat × Tracker)) (hdr : Id) (len now b : Nat)
    (hne : b ≠ hdr.id) (st' : List (Nat × Tracker))
    (hstep : rxStep st hdr len now = some st') :
    alLookup b st' = alLookup b st ∧
      (hdr.last = true → alLookup hdr.id st' = none) ∧
      (hdr.last = false → ∃ t, alLookup hdr.id st' = some t ∧
        t.pkts.getLast? = some ⟨now, hdr.cnt, len⟩) := by
  unfold rxStep at hstep
  split at hstep
  · cases hstep
  · rename_i tr1 hrr
    by_cases hl : hdr.last
    · rw [if_pos hl] at hstep
      split at hstep
      · cases hstep
      · rename_i s hsum
        injection hstep with hstep
        subst hstep
        refine ⟨?_, fun _ => ?_, fun hfl => by rw [hl] at hfl; cases hfl⟩
        · rw [alLookup_remove_ne b hdr.id hne, alLookup_update_ne b hdr.id tr1 hne]
        · rw [alLookup_remove_self]
    · rw [if_neg hl] at hstep
      injection hstep with hstep
      subst hstep
      refine ⟨alLookup_update_ne b hdr.id _ hne st, fun htr => absurd htr hl, fun _ => ?_⟩
      refine ⟨(Tracker.insert tr1 hdr len now).2, alLookup_update_self hdr.id _ st, ?_⟩
      simp [Tracker.insert, List.getLast?_concat]

/-- C7 (witness): with streams 2 and 1 tracked, an end-of-stream frame for
stream 2 removes stream 2's tracker and leaves stream 1's tracker — and all
its accumulated state — untouched. -/
theorem rxStep_isolation_witness :
    alLookup 1 [(1, trackerB)] = alLookup 1 [(2, trackerA), (1, trackerB)] ∧
      ((⟨2, 3, true⟩ : Id).last = true → alLookup 2 [(1, trackerB)] = none) ∧
      ((⟨2, 3, true⟩ : Id).last = false → ∃ t, alLookup 2 [(1, trackerB)] = some t ∧
        t.pkts.getLast? = some ⟨0, 3, 50⟩) :=
  rxStep_isolation [(2, trackerA), (1, trackerB)] ⟨2, 3, true⟩ 50 0 1 (by decide)
    [(1, trackerB)]
    (by simp [rxStep, alLookup, trackerA, trackerB, Tracker.new, Tracker.report_rx,
      Tracker.report_rx_summary, reportRxCalc, checkedSub, alUpdate, alRemove])

end L2Perf
